import Mathlib

/-!
Shallow embedding of `src/core/tracker.h` (class `rocprofiler::Tracker`).

The tracker substitutes a proxy HSA signal for a caller-supplied original
signal, registers an asynchronous threshold callback (`Handler`) on the
proxy, and on firing captures timestamps (`Complete`), forwards completion
to the original signal, invokes the armed user handler, and deletes the
entry from the registry.

Modelling decisions:
* pointers are `Nat` with `0` for `NULL`;
* the HSA runtime's signal memory (`amd_signal_t` objects addressed by a
  signal handle) is a `World`: a function from handles to backing state;
* the registry `sig_list_` (a `std::list<entry_t*>`) is a list of nodes,
  each node carrying a stable node identity (`nid`, modelling the node
  address a `std::list` iterator denotes) and the id (`eid`, modelling the
  address) of the entry it stores;
* memory-ordering annotations of the source (acquire polling loads,
  release store of the handler pointer, relaxed load / screlease store of
  the original signal value) are recorded as events in explicit traces;
  sequential state updates model the single-writer / single-reader
  discipline the source relies on;
* exceptions raised with `EXC_RAISING` become `Except.error status`.
-/

namespace Rocprofiler

/-- A C pointer, modelled as a machine address; `0` is `NULL`. -/
abbrev Ptr := Nat

/-- `hsa_signal_t`: an opaque handle (the address of the signal's backing
`amd_signal_t` object); handle `0` is the null signal. -/
structure hsa_signal_t where
  handle : Nat
deriving DecidableEq, Repr

/-- `hsa_agent_t`: an opaque device handle. -/
structure hsa_agent_t where
  handle : Nat
deriving DecidableEq, Repr

/-- The fields of the runtime's `amd_signal_t` backing object that
`tracker.h` touches: the signal value and the hardware start/end
timestamps. -/
structure amd_signal_t where
  value : Int
  start_ts : Nat
  end_ts : Nat
deriving DecidableEq, Repr

/-- `rocprofiler_dispatch_record_t` (`record_t`), with the fields the
tracker writes: dispatch, begin, end and complete timestamps (`end` is a
Lean keyword, hence `end_`). `new record_t` value-initializes all fields
to zero. -/
structure record_t where
  dispatch : Nat
  begin : Nat
  end_ : Nat
  complete : Nat
deriving DecidableEq, Repr

/-- `record_t` after `new record_t` (value initialization). -/
def recordZero : record_t := { dispatch := 0, begin := 0, end_ := 0, complete := 0 }

/-- `rocprofiler_group_t`: the tracker only ever value-initializes one
(`rocprofiler_group_t group` followed by empty braces) and hands it to the
simple handler; its members are never inspected here, so a single
zero-initialized payload field represents the default-constructed value. -/
structure rocprofiler_group_t where
  payload : Nat := 0
deriving DecidableEq, Repr

/-- A node of `sig_list_` (a `std::list<entry_t*>` node): `nid` is the
node's stable address, which is what an iterator denotes, and `entry` is
the `entry_t*` stored in the node (as an entry id). -/
structure LNode where
  nid : Nat
  entry : Nat
deriving DecidableEq, Repr

/-- `Tracker::entry_t`. `eid` models the entry object's own address; `it`
is the stored `sig_list_t::iterator`, i.e. the `nid` of a node. The
`tracker` back-pointer is implicit (operations take the tracker state
explicitly). `new entry_t` with empty braces value-initializes every
field. -/
structure entry_t where
  eid : Nat
  it : Nat
  agent : hsa_agent_t
  orig : hsa_signal_t
  signal : hsa_signal_t
  record : record_t
  handler : Ptr
  arg : Ptr
  context_active : Bool
deriving DecidableEq, Repr

/-- `entry_t` after `new entry_t` (value initialization: null pointers,
zero handles, `context_active = false`). -/
def entryZero : entry_t :=
  { eid := 0, it := 0, agent := ⟨0⟩, orig := ⟨0⟩, signal := ⟨0⟩,
    record := recordZero, handler := 0, arg := 0, context_active := false }

/-- The registry state of a `Tracker`: the signal list plus a supply of
fresh node addresses. -/
structure Tracker where
  sig_list : List LNode
  nextNode : Nat

/-- The HSA runtime's signal memory: backing state per signal handle. -/
structure World where
  signals : Nat → amd_signal_t

/-- Pointwise update of the world at one signal handle. -/
def World.update (w : World) (h : Nat) (s : amd_signal_t) : World :=
  ⟨fun x => if x = h then s else w.signals x⟩

/-- `hsa_signal_load_relaxed`: read the signal's current value. -/
def hsa_signal_load_relaxed (w : World) (s : hsa_signal_t) : Int :=
  (w.signals s.handle).value

/-- `hsa_signal_store_screlease`: store a new signal value. -/
def hsa_signal_store_screlease (w : World) (s : hsa_signal_t) (v : Int) : World :=
  w.update s.handle { w.signals s.handle with value := v }

/-- Runtime environment `Complete` consumes: the host clock
(`HsaRsrcFactory::TimestampNs`), the sysclock conversion
(`SysclockToNs`), and `hsa_amd_profiling_get_dispatch_time`, which either
fails with an `hsa_status_t` or yields the dispatch start/end sysclock
ticks. -/
structure Env where
  timestampNs : Nat
  sysclockToNs : Nat → Nat
  getDispatchTime : hsa_agent_t → hsa_signal_t → Except Nat (Nat × Nat)

/-- One access `Complete` performs on the original signal's backing
object: the two timestamp forwarding writes, the relaxed value load, and
the screlease value store. There is no compare-and-swap access. -/
inductive SigAccess where
  | writeStartTs (h : Nat) (v : Nat)
  | writeEndTs (h : Nat) (v : Nat)
  | loadRelaxed (h : Nat) (v : Int)
  | storeScRelease (h : Nat) (v : Int)
deriving DecidableEq, Repr

/-- `Tracker::Complete`. Queries begin/end hardware timestamps for the
proxy signal (raising on failure), fills the record's begin/end/complete
fields, and — only when the original signal handle is non-null — copies
the proxy `amd_signal_t` start/end timestamps into the original signal's
backing object and decrements the original signal's value by one with a
relaxed load followed by an screlease store. Returns the updated record,
the updated world, and the list of accesses made to the original
signal. The decrement is race-free only under the source's precondition
that no other writer mutates the original signal concurrently; the
sequential world update embodies that precondition. -/
def Complete (env : Env) (w : World) (e : entry_t) :
    Except Nat (record_t × World × List SigAccess) :=
  match env.getDispatchTime e.agent e.signal with
  | .error s => .error s
  | .ok dt =>
    let record : record_t :=
      { e.record with
        begin := env.sysclockToNs dt.1
        end_ := env.sysclockToNs dt.2
        complete := env.timestampNs }
    let orig := e.orig
    if orig.handle ≠ 0 then
      let profS := w.signals e.signal.handle
      let origS := w.signals orig.handle
      let w1 := w.update orig.handle
        { origS with start_ts := profS.start_ts, end_ts := profS.end_ts }
      let value := hsa_signal_load_relaxed w1 orig
      let w2 := hsa_signal_store_screlease w1 orig (value - 1)
      .ok (record, w2,
        [SigAccess.writeStartTs orig.handle profS.start_ts,
         SigAccess.writeEndTs orig.handle profS.end_ts,
         SigAccess.loadRelaxed orig.handle value,
         SigAccess.storeScRelease orig.handle (value - 1)])
    else
      .ok (record, w, [])

/-- `std::list::erase(entry->it)` inside `Tracker::Delete`: remove the
(first, and under distinct node addresses the only) node whose address is
the stored iterator. -/
def Tracker.eraseIt (t : Tracker) (it : Nat) : Tracker :=
  { t with sig_list := t.sig_list.eraseP (fun n => n.nid == it) }

/-- `Tracker::Delete`: destroy the proxy signal, erase the node the
entry's stored iterator denotes under the mutex, and free the entry. Only
the registry effect is observable in this model. -/
def Tracker.Delete (t : Tracker) (e : entry_t) : Tracker :=
  t.eraseIt e.it

/-- One write `Enable` (arming) performs on the entry's fields. -/
inductive EntryWrite where
  | writeContextActive (b : Bool)
  | writeArg (a : Ptr)
  | storeHandlerRel (h : Ptr)
deriving DecidableEq, Repr

/-- The private `Tracker::Enable(entry, void* handler, void* arg)`: set
`entry->arg`, then release-store `entry->handler`. The debug-trace block
is compiled against `trace_on_ = false` and writes no entry field. State
effect. -/
def Enable (e : entry_t) (handler arg : Ptr) : entry_t :=
  { e with arg := arg, handler := handler }

/-- Entry-field writes of the private `Enable` overload, in program
order: the argument write, then the release store of the handler
pointer. -/
def EnableWrites (handler arg : Ptr) : List EntryWrite :=
  [EntryWrite.writeArg arg, EntryWrite.storeHandlerRel handler]

/-- The `hsa_amd_signal_handler` (context-style) `Enable` overload: set
`context_active = true`, then run the private overload. State effect. -/
def EnableCtx (e : entry_t) (handler arg : Ptr) : entry_t :=
  Enable { e with context_active := true } handler arg

/-- Entry-field writes of the context-style `Enable` overload, in program
order. -/
def EnableCtxWrites (handler arg : Ptr) : List EntryWrite :=
  EntryWrite.writeContextActive true :: EnableWrites handler arg

/-- The `rocprofiler_handler_t` (simple) `Enable` overload: it only
forwards to the private overload. State effect. -/
def EnableSimple (e : entry_t) (handler arg : Ptr) : entry_t :=
  Enable e handler arg

/-- Entry-field writes of the simple `Enable` overload, in program
order. -/
def EnableSimpleWrites (handler arg : Ptr) : List EntryWrite :=
  EnableWrites handler arg

/-- Is this write the release store of the handler pointer? -/
def EntryWrite.isHandlerStore : EntryWrite → Bool
  | .storeHandlerRel _ => true
  | _ => false

/-- The static const `Tracker::trace_on_` flag. -/
def trace_on_ : Bool := false

/-- Which of the two calling conventions an armed handler is invoked
through: the context-style `hsa_amd_signal_handler` receives a status
value and the argument; the simple `rocprofiler_handler_t` receives a
`rocprofiler_group_t` and the argument. `fn` is the stored function
pointer. -/
inductive UserCall where
  | ctxCall (fn : Ptr) (status : Int) (arg : Ptr)
  | simpleCall (fn : Ptr) (group : rocprofiler_group_t) (arg : Ptr)
deriving DecidableEq, Repr

/-- An observable step of the static `Tracker::Handler` callback:
an acquire-ordered poll of the entry's handler field (with the value it
observed; `0` is `NULL`), the run of `Complete`, the invocation of the
user handler, and the `Delete` of the entry. -/
inductive Event where
  | loadHandler (v : Ptr)
  | completeEv
  | invoke (c : UserCall)
  | deleteEv
deriving DecidableEq, Repr

/-- Is the event one of the acquire polls of the handler field? -/
def Event.isLoad : Event → Bool
  | .loadHandler _ => true
  | _ => false

/-- The busy-wait of `Handler`: poll the handler field (whose value at
the i-th poll is `obs i`) from index `i` with acquire loads until a
non-null value is observed, yielding the index of the first non-null
observation. `fuel` bounds the unrolling; the source loop is unbounded,
so exhausted fuel models a run in which arming has not yet happened. -/
def spin (obs : Nat → Ptr) : Nat → Nat → Option Nat
  | _, 0 => none
  | i, fuel + 1 => if obs i ≠ 0 then some i else spin obs (i + 1) fuel

/-- The static `Tracker::Handler(hsa_signal_value_t, void* arg)` callback.
`obs` gives the value of the entry's atomic handler field at each poll of
the busy-wait; `e` is the entry as the acquire/release handshake makes it
visible once the handler field is non-null. The callback spins until the
handler field is non-null, runs `Complete`, invokes the stored handler
through the calling convention selected by `context_active` (status `0`
for the context style, a value-initialized group for the simple style),
deletes the entry from the registry, and returns `false` (do not
re-arm). A raising `Complete` propagates as `Except.error` and nothing
after it runs; exhausted fuel yields `none` (still spinning). -/
def HandlerRun (obs : Nat → Ptr) (fuel : Nat) (env : Env) (w : World)
    (t : Tracker) (e : entry_t) :
    Option (List Event × Except Nat (Tracker × World × Bool)) :=
  match spin obs 0 fuel with
  | none => none
  | some k =>
    let loads := (List.range (k + 1)).map (fun i => Event.loadHandler (obs i))
    match Complete env w e with
    | .error s => some (loads, .error s)
    | .ok (_, w2, _) =>
      let call :=
        if e.context_active then UserCall.ctxCall e.handler 0 e.arg
        else UserCall.simpleCall e.handler {} e.arg
      some (loads ++ [Event.completeEv, Event.invoke call, Event.deleteEv],
        .ok (t.Delete e, w2, false))

/-- The condition argument of `hsa_amd_signal_async_handler`; the tracker
registers with `HSA_SIGNAL_CONDITION_LT`. -/
inductive SignalCond where
  | lt
  | eq_
  | gte
deriving DecidableEq, Repr

/-- A call `Alloc` makes into the HSA runtime: `hsa_signal_create` with
its initial value and consumer count, and `hsa_amd_signal_async_handler`
registering the static `Handler` callback on a signal with a condition, a
compare value and an opaque argument (the entry). -/
inductive RtCall where
  | signalCreate (initialValue : Int) (numConsumers : Nat)
  | asyncHandlerReg (signal : hsa_signal_t) (cond : SignalCond)
      (value : Int) (arg : Nat)
deriving DecidableEq, Repr

/-- Runtime responses `Alloc` consumes: the host clock for the dispatch
timestamp, the outcome of `hsa_signal_create` (an error status, or the
handle of the created signal), and the status `hsa_amd_signal_async_handler`
returns (`0` is `HSA_STATUS_SUCCESS`). -/
structure AllocEnv where
  timestampNs : Nat
  signalCreate : Except Nat Nat
  asyncHandlerStatus : Nat

/-- `Tracker::Alloc(agent, orig)`. Value-initializes a fresh entry and
record, stamps the record's dispatch timestamp from the shared clock,
creates the proxy signal with initial value 1 (raising on failure),
registers `Handler` on it with condition `value < 1` and the entry as
opaque argument (raising on failure), then inserts the entry at the front
of `sig_list_` under the mutex and stores the returned iterator in the
entry. `eid` models the address `new` returns for the entry. Yields the
registry state, the runtime calls made, and the entry or the raised
status. -/
def Tracker.Alloc (env : AllocEnv) (t : Tracker) (agent : hsa_agent_t)
    (orig : hsa_signal_t) (eid : Nat) :
    Tracker × List RtCall × Except Nat entry_t :=
  let e0 : entry_t := { entryZero with eid := eid, agent := agent, orig := orig }
  let e1 : entry_t := { e0 with record := { recordZero with dispatch := env.timestampNs } }
  match env.signalCreate with
  | .error s => (t, [RtCall.signalCreate 1 0], .error s)
  | .ok h =>
    let e2 : entry_t := { e1 with signal := ⟨h⟩ }
    let calls := [RtCall.signalCreate 1 0,
      RtCall.asyncHandlerReg ⟨h⟩ SignalCond.lt 1 eid]
    if env.asyncHandlerStatus ≠ 0 then (t, calls, .error env.asyncHandlerStatus)
    else
      let nid := t.nextNode
      let t2 : Tracker := { sig_list := ⟨nid, eid⟩ :: t.sig_list, nextNode := nid + 1 }
      (t2, calls, .ok { e2 with it := nid })

/-- An observable step of the `Tracker` destructor: the blocking
`HsaRsrcFactory::SignalWait` on an entry's proxy signal, and the
`Erase`/`Delete` that removes and frees the entry. -/
inductive DtorEvent where
  | waitSig (s : hsa_signal_t)
  | eraseEntry (eid : Nat)
deriving DecidableEq, Repr

/-- The destructor's loop over the captured node sequence: for each node,
`SignalWait` on the stored entry's proxy signal, then `Erase(cur)`, which
is `Delete(*cur)`. `heap` resolves a stored `entry_t*` to the entry
object. The loop advances its iterator before erasing, so erasure of the
current node (the self-position invariant) does not disturb the
traversal; the node sequence is therefore walked in list order. -/
def dtorGo (heap : Nat → entry_t) : List LNode → Tracker → List DtorEvent × Tracker
  | [], t => ([], t)
  | n :: rest, t =>
    let e := heap n.entry
    let t2 := t.Delete e
    let step := dtorGo heap rest t2
    (DtorEvent.waitSig e.signal :: DtorEvent.eraseEntry e.eid :: step.1, step.2)

/-- `Tracker::~Tracker`: drain `sig_list_` front to back, blocking on
each entry's proxy signal and then erasing it. -/
def TrackerDtor (heap : Nat → entry_t) (t : Tracker) : List DtorEvent × Tracker :=
  dtorGo heap t.sig_list t

/-- The user-handler invocations an event trace contains, in order. -/
def invokesOf (tr : List Event) : List UserCall :=
  tr.filterMap fun ev => match ev with
    | .invoke c => some c
    | _ => none

/-! Helper lemmas about the busy-wait and event traces. -/

/-- The busy-wait yields the first poll index at which the handler field
was observed non-null: every earlier poll (from the start index) saw
null. -/
theorem spin_first_nonnull (obs : Nat → Ptr) :
    ∀ fuel i k, spin obs i fuel = some k →
      i ≤ k ∧ obs k ≠ 0 ∧ ∀ j, i ≤ j → j < k → obs j = 0 := by
  intro fuel
  induction fuel with
  | zero => intro i k h; simp [spin] at h
  | succ n ih =>
    intro i k h
    by_cases h0 : obs i = 0
    · have hrec : spin obs (i + 1) n = some k := by
        simpa [spin, h0] using h
      obtain ⟨hik, hk, hall⟩ := ih (i + 1) k hrec
      refine ⟨Nat.le_of_succ_le hik, hk, fun j hij hjk => ?_⟩
      rcases Nat.eq_or_lt_of_le hij with heq | hlt
      · simpa [← heq] using h0
      · exact hall j hlt hjk
    · have hik : i = k := by simpa [spin, h0] using h
      subst hik
      exact ⟨Nat.le_refl i, h0,
        fun j hij hji => absurd (Nat.lt_of_le_of_lt hij hji) (Nat.lt_irrefl i)⟩

/-- The poll events of the busy-wait contain no user-handler
invocation. -/
theorem invokesOf_load_map (obs : Nat → Ptr) (l : List Nat) :
    invokesOf (l.map fun i => Event.loadHandler (obs i)) = [] := by
  induction l with
  | nil => rfl
  | cons a as ih => simp only [List.map_cons, invokesOf, List.filterMap_cons]; exact ih

/-- `invokesOf` distributes over trace concatenation. -/
theorem invokesOf_append (a b : List Event) :
    invokesOf (a ++ b) = invokesOf a ++ invokesOf b := by
  simp [invokesOf, List.filterMap_append]

/-! Per-claim fixtures used by the concrete witnesses below. -/

/-- A concrete runtime environment: clock at 1000 ns, sysclock ticks are
10 ns, the dispatch-time query succeeds with ticks (3, 5). -/
def envW : Env :=
  { timestampNs := 1000, sysclockToNs := fun n => 10 * n,
    getDispatchTime := fun _ _ => Except.ok (3, 5) }

/-- A concrete world: the original signal lives at handle 7 with value 2,
the proxy signal at handle 9 with hardware timestamps 111/222. -/
def wW : World :=
  ⟨fun h => if h = 7 then ⟨2, 0, 0⟩ else if h = 9 then ⟨0, 111, 222⟩ else ⟨0, 0, 0⟩⟩

/-- A concrete registry holding one node (address 5) that stores entry
21. -/
def trackerW : Tracker := { sig_list := [⟨5, 21⟩], nextNode := 6 }

/-- A concrete armed entry: entry 21 at node 5, original signal handle 7,
proxy signal handle 9, simple handler at address 33 with argument 42. -/
def entryW : entry_t :=
  { entryZero with
    eid := 21, it := 5, agent := ⟨1⟩, orig := ⟨7⟩,
    signal := ⟨9⟩, handler := 33, arg := 42 }

/-- A concrete history of the entry's handler field: null for the first
two polls, then the published pointer 33. -/
def obsW : Nat → Ptr := fun i => if 2 ≤ i then 33 else 0

/-- The output of the callback on the concrete fixtures (defaulted if it
were still spinning, which it is not). -/
def handlerOutW : List Event × Except Nat (Tracker × World × Bool) :=
  (HandlerRun obsW 10 envW wW trackerW entryW).getD ([], Except.error 0)

/-! Claim theorems. -/

/-- C1: every terminating run of the asynchronous callback observed the
handler field non-null at some poll `k`, observed only null at every
earlier poll, and its trace consists of exactly those acquire polls
followed only by non-poll events — so completion logic and the user
handler run only after a non-null handler pointer was observed, i.e.
after `Enable` published it. -/
theorem handler_proceeds_only_after_publication
    (obs : Nat → Ptr) (fuel : Nat) (env : Env) (w : World) (t : Tracker)
    (e : entry_t) (tr : List Event) (res : Except Nat (Tracker × World × Bool))
    (hrun : HandlerRun obs fuel env w t e = some (tr, res)) :
    ∃ k rest, obs k ≠ 0 ∧ (∀ j, j < k → obs j = 0) ∧
      tr = (List.range (k + 1)).map (fun i => Event.loadHandler (obs i)) ++ rest ∧
      ∀ ev ∈ rest, ev.isLoad = false := by
  cases hspin : spin obs 0 fuel with
  | none => simp [HandlerRun, hspin] at hrun
  | some k =>
    obtain ⟨-, hk, hall⟩ := spin_first_nonnull obs fuel 0 k hspin
    have hall0 : ∀ j, j < k → obs j = 0 := fun j hj => hall j (Nat.zero_le j) hj
    cases hc : Complete env w e with
    | error s =>
      simp only [HandlerRun, hspin, hc, Option.some.injEq, Prod.mk.injEq] at hrun
      refine ⟨k, [], hk, hall0, ?_, ?_⟩
      · rw [← hrun.1, List.append_nil]
      · intro ev hev; simp at hev
    | ok out =>
      simp only [HandlerRun, hspin, hc, Option.some.injEq, Prod.mk.injEq] at hrun
      refine ⟨k, [Event.completeEv,
        Event.invoke (if e.context_active then UserCall.ctxCall e.handler 0 e.arg
          else UserCall.simpleCall e.handler {} e.arg), Event.deleteEv],
        hk, hall0, hrun.1.symm, ?_⟩
      intro ev hev
      simp only [List.mem_cons, List.not_mem_nil, or_false] at hev
      rcases hev with rfl | rfl | rfl <;> rfl

/-- C1 witness: on the concrete fixtures the callback terminates and the
conclusion holds at that run. -/
theorem handler_proceeds_only_after_publication_witness :
    ∃ k rest, obsW k ≠ 0 ∧ (∀ j, j < k → obsW j = 0) ∧
      handlerOutW.1 =
        (List.range (k + 1)).map (fun i => Event.loadHandler (obsW i)) ++ rest ∧
      ∀ ev ∈ rest, ev.isLoad = false :=
  handler_proceeds_only_after_publication obsW 10 envW wW trackerW entryW
    handlerOutW.1 handlerOutW.2 rfl

/-- C3: in every terminating run of the completion callback, on the
normal path the trace is the acquire polls, then `Complete` (timestamp
capture), then the single user-handler invocation, then the `Delete`,
which is the last event; the final registry state is the entry's node
erased; and the value reported back to the runtime is `false` (do not
re-arm). On the raising path (timestamp-query failure, which propagates
as an error and never returns a re-arm flag) no user handler is invoked
and no delete happens. -/
theorem handler_complete_then_invoke_then_delete
    (obs : Nat → Ptr) (fuel : Nat) (env : Env) (w : World) (t : Tracker)
    (e : entry_t) (tr : List Event) (res : Except Nat (Tracker × World × Bool))
    (hrun : HandlerRun obs fuel env w t e = some (tr, res)) :
    (∀ t2 w2 b, res = Except.ok (t2, w2, b) →
      ∃ k c, tr.length = k + 4 ∧
        tr[k + 1]? = some Event.completeEv ∧
        tr[k + 2]? = some (Event.invoke c) ∧
        tr[k + 3]? = some Event.deleteEv ∧
        invokesOf tr = [c] ∧ t2 = t.Delete e ∧ b = false) ∧
    (∀ s, res = Except.error s → invokesOf tr = [] ∧ Event.deleteEv ∉ tr) := by
  cases hspin : spin obs 0 fuel with
  | none => simp [HandlerRun, hspin] at hrun
  | some k =>
    cases hc : Complete env w e with
    | error s =>
      simp only [HandlerRun, hspin, hc, Option.some.injEq, Prod.mk.injEq] at hrun
      obtain ⟨htr, hres⟩ := hrun
      subst htr; subst hres
      constructor
      · intro t2 w2 b hb; simp at hb
      · intro s2 _
        refine ⟨invokesOf_load_map obs _, ?_⟩
        simp
    | ok out =>
      obtain ⟨r0, w0, acc0⟩ := out
      simp only [HandlerRun, hspin, hc, Option.some.injEq, Prod.mk.injEq] at hrun
      obtain ⟨htr, hres⟩ := hrun
      subst htr; subst hres
      constructor
      · intro t2 w2 b hb
        simp only [Except.ok.injEq, Prod.mk.injEq] at hb
        obtain ⟨ht2, -, hb'⟩ := hb
        have hlen :
            ((List.range (k + 1)).map fun i => Event.loadHandler (obs i)).length
              = k + 1 := by simp
        refine ⟨k,
          (if e.context_active then UserCall.ctxCall e.handler 0 e.arg
            else UserCall.simpleCall e.handler {} e.arg),
          ?_, ?_, ?_, ?_, ?_, ht2.symm, hb'.symm⟩
        · simp only [List.length_append, hlen]; rfl
        · rw [List.getElem?_append_right (le_of_eq hlen)]
          simp [hlen]
        · rw [List.getElem?_append_right (by rw [hlen]; omega)]
          have h2 : k + 2 -
              ((List.range (k + 1)).map fun i => Event.loadHandler (obs i)).length
                = 1 := by rw [hlen]; omega
          rw [h2]; rfl
        · rw [List.getElem?_append_right (by rw [hlen]; omega)]
          have h3 : k + 3 -
              ((List.range (k + 1)).map fun i => Event.loadHandler (obs i)).length
                = 2 := by rw [hlen]; omega
          rw [h3]; rfl
        · rw [invokesOf_append, invokesOf_load_map]
          rfl
      · intro s hs; simp at hs

/-- C3 witness: the conclusion holds at the concrete run of the callback
on the fixtures. -/
theorem handler_complete_then_invoke_then_delete_witness :
    (∀ t2 w2 b, handlerOutW.2 = Except.ok (t2, w2, b) →
      ∃ k c, handlerOutW.1.length = k + 4 ∧
        handlerOutW.1[k + 1]? = some Event.completeEv ∧
        handlerOutW.1[k + 2]? = some (Event.invoke c) ∧
        handlerOutW.1[k + 3]? = some Event.deleteEv ∧
        invokesOf handlerOutW.1 = [c] ∧ t2 = trackerW.Delete entryW ∧ b = false) ∧
    (∀ s, handlerOutW.2 = Except.error s →
      invokesOf handlerOutW.1 = [] ∧ Event.deleteEv ∉ handlerOutW.1) :=
  handler_complete_then_invoke_then_delete obsW 10 envW wW trackerW entryW
    handlerOutW.1 handlerOutW.2 rfl

/-- C7: exactly one of the two calling conventions executes on
completion, selected by the discriminator set at arming: an entry armed
through the context-style overload produces a single context-style call
of the stored pointer with a zero status and the stored argument, while
an entry whose discriminator retains its allocation-time default of
`false`, armed through the simple overload, produces a single simple call
of the stored pointer with a value-initialized group and the stored
argument. -/
theorem handler_dispatch_matches_armed_variant
    (obs : Nat → Ptr) (fuel : Nat) (env : Env) (w : World) (t : Tracker)
    (e : entry_t) (h a : Ptr) :
    (∀ tr t2 w2 b,
      HandlerRun obs fuel env w t (EnableCtx e h a) =
          some (tr, Except.ok (t2, w2, b)) →
      invokesOf tr = [UserCall.ctxCall h 0 a]) ∧
    (e.context_active = false →
      ∀ tr t2 w2 b,
      HandlerRun obs fuel env w t (EnableSimple e h a) =
          some (tr, Except.ok (t2, w2, b)) →
      invokesOf tr = [UserCall.simpleCall h {} a]) := by
  constructor
  · intro tr t2 w2 b hrun
    cases hspin : spin obs 0 fuel with
    | none => simp [HandlerRun, hspin] at hrun
    | some k =>
      cases hc : Complete env w (EnableCtx e h a) with
      | error s => simp [HandlerRun, hspin, hc] at hrun
      | ok out =>
        obtain ⟨r0, w0, acc0⟩ := out
        simp only [HandlerRun, hspin, hc, Option.some.injEq, Prod.mk.injEq] at hrun
        obtain ⟨htr, -⟩ := hrun
        rw [← htr, invokesOf_append, invokesOf_load_map]
        simp [invokesOf, EnableCtx, Enable]
  · intro hca tr t2 w2 b hrun
    cases hspin : spin obs 0 fuel with
    | none => simp [HandlerRun, hspin] at hrun
    | some k =>
      cases hc : Complete env w (EnableSimple e h a) with
      | error s => simp [HandlerRun, hspin, hc] at hrun
      | ok out =>
        obtain ⟨r0, w0, acc0⟩ := out
        simp only [HandlerRun, hspin, hc, Option.some.injEq, Prod.mk.injEq] at hrun
        obtain ⟨htr, -⟩ := hrun
        rw [← htr, invokesOf_append, invokesOf_load_map]
        simp [invokesOf, EnableSimple, Enable, hca]

/-- C7 witness: the conclusion holds at the concrete fixtures (entry with
discriminator still at its allocation-time default, armed with handler 33
and argument 42). -/
theorem handler_dispatch_matches_armed_variant_witness :
    (∀ tr t2 w2 b,
      HandlerRun obsW 10 envW wW trackerW (EnableCtx entryW 33 42) =
          some (tr, Except.ok (t2, w2, b)) →
      invokesOf tr = [UserCall.ctxCall 33 0 42]) ∧
    (entryW.context_active = false →
      ∀ tr t2 w2 b,
      HandlerRun obsW 10 envW wW trackerW (EnableSimple entryW 33 42) =
          some (tr, Except.ok (t2, w2, b)) →
      invokesOf tr = [UserCall.simpleCall 33 {} 42]) :=
  handler_dispatch_matches_armed_variant obsW 10 envW wW trackerW entryW 33 42

/-- An entry like `entryW` but with a null original-signal handle. -/
def entryN : entry_t := { entryW with orig := ⟨0⟩ }

/-- C9: when the entry's original-signal handle is null, `Complete`
performs no access to the original signal at all — the world is returned
unchanged and the access list is empty — while the record is still
stamped, and any terminating callback run still invokes the stored
handler exactly once with the stored argument and still deletes the
entry, returning `false`. -/
theorem complete_null_orig_no_signal_access
    (obs : Nat → Ptr) (fuel : Nat) (env : Env) (w : World) (t : Tracker)
    (e : entry_t) (dt : Nat × Nat)
    (horig : e.orig.handle = 0)
    (hdt : env.getDispatchTime e.agent e.signal = Except.ok dt) :
    Complete env w e = Except.ok
      ({ e.record with
          begin := env.sysclockToNs dt.1,
          end_ := env.sysclockToNs dt.2,
          complete := env.timestampNs }, w, []) ∧
    (∀ tr res, HandlerRun obs fuel env w t e = some (tr, res) →
      res = Except.ok (t.Delete e, w, false) ∧
      invokesOf tr =
        [if e.context_active then UserCall.ctxCall e.handler 0 e.arg
          else UserCall.simpleCall e.handler {} e.arg] ∧
      Event.deleteEv ∈ tr) := by
  have hC : Complete env w e = Except.ok
      ({ e.record with
          begin := env.sysclockToNs dt.1,
          end_ := env.sysclockToNs dt.2,
          complete := env.timestampNs }, w, []) := by
    simp [Complete, hdt, horig]
  refine ⟨hC, ?_⟩
  intro tr res hrun
  cases hspin : spin obs 0 fuel with
  | none => simp [HandlerRun, hspin] at hrun
  | some k =>
    simp only [HandlerRun, hspin, hC, Option.some.injEq, Prod.mk.injEq] at hrun
    obtain ⟨htr, hres⟩ := hrun
    refine ⟨hres.symm, ?_, ?_⟩
    · rw [← htr, invokesOf_append, invokesOf_load_map]
      simp [invokesOf]
    · rw [← htr]
      simp

/-- C9 witness: the conclusion holds on the fixtures with a null original
signal handle. -/
theorem complete_null_orig_no_signal_access_witness :
    Complete envW wW entryN = Except.ok
      ({ entryN.record with
          begin := envW.sysclockToNs (3, 5).1,
          end_ := envW.sysclockToNs (3, 5).2,
          complete := envW.timestampNs }, wW, []) ∧
    (∀ tr res, HandlerRun obsW 10 envW wW trackerW entryN = some (tr, res) →
      res = Except.ok (trackerW.Delete entryN, wW, false) ∧
      invokesOf tr =
        [if entryN.context_active then UserCall.ctxCall entryN.handler 0 entryN.arg
          else UserCall.simpleCall entryN.handler {} entryN.arg] ∧
      Event.deleteEv ∈ tr) :=
  complete_null_orig_no_signal_access obsW 10 envW wW trackerW entryN (3, 5)
    rfl rfl

/-- Reading the updated handle yields the stored state. -/
@[simp] theorem World.update_same (w : World) (h : Nat) (s : amd_signal_t) :
    (w.update h s).signals h = s := by
  simp [World.update]

/-- Reading any other handle is unchanged by an update. -/
theorem World.update_other (w : World) (h x : Nat) (s : amd_signal_t)
    (hx : x ≠ h) : (w.update h s).signals x = w.signals x := by
  simp [World.update, hx]

/-- C2: for an entry whose original-signal handle is non-null (and whose
proxy signal is a distinct object, as `Alloc` guarantees by creating the
proxy fresh), a successful `Complete` copies the proxy backing object's
start/end timestamps into the original signal's backing object — so
afterwards the original signal's begin/end timestamps equal the proxy's —
and decreases the original signal's value by exactly one relative to its
pre-completion value; the accesses to the original signal are exactly the
two timestamp writes, then one relaxed load of the value, then one
screlease store of `value - 1` (no compare-and-swap); every other signal
is untouched. The load-then-store decrement is sound only under the
source's precondition that no other writer mutates the original signal
concurrently, which the sequential world model assumes. -/
theorem complete_forwards_to_original_signal
    (env : Env) (w : World) (e : entry_t) (dt : Nat × Nat)
    (horig : e.orig.handle ≠ 0)
    (hne : e.orig.handle ≠ e.signal.handle)
    (hdt : env.getDispatchTime e.agent e.signal = Except.ok dt) :
    ∃ r w2, Complete env w e = Except.ok (r, w2,
        [SigAccess.writeStartTs e.orig.handle (w.signals e.signal.handle).start_ts,
         SigAccess.writeEndTs e.orig.handle (w.signals e.signal.handle).end_ts,
         SigAccess.loadRelaxed e.orig.handle (w.signals e.orig.handle).value,
         SigAccess.storeScRelease e.orig.handle
           ((w.signals e.orig.handle).value - 1)]) ∧
      (w2.signals e.orig.handle).start_ts = (w2.signals e.signal.handle).start_ts ∧
      (w2.signals e.orig.handle).end_ts = (w2.signals e.signal.handle).end_ts ∧
      (w2.signals e.orig.handle).value = (w.signals e.orig.handle).value - 1 ∧
      (∀ hh, hh ≠ e.orig.handle → w2.signals hh = w.signals hh) := by
  simp only [Complete, hdt, horig, ne_eq, not_false_eq_true, if_true,
    hsa_signal_load_relaxed, hsa_signal_store_screlease, World.update_same]
  refine ⟨_, _, rfl, ?_, ?_, ?_, ?_⟩
  · simp [World.update_other, Ne.symm hne]
  · simp [World.update_other, Ne.symm hne]
  · simp
  · intro hh hhh
    simp [World.update_other, hhh]

/-- C2 witness: the conclusion holds on the concrete fixtures (original
signal at handle 7 with value 2, proxy at handle 9 with hardware
timestamps 111/222). -/
theorem complete_forwards_to_original_signal_witness :
    ∃ r w2, Complete envW wW entryW = Except.ok (r, w2,
        [SigAccess.writeStartTs entryW.orig.handle
           (wW.signals entryW.signal.handle).start_ts,
         SigAccess.writeEndTs entryW.orig.handle
           (wW.signals entryW.signal.handle).end_ts,
         SigAccess.loadRelaxed entryW.orig.handle
           (wW.signals entryW.orig.handle).value,
         SigAccess.storeScRelease entryW.orig.handle
           ((wW.signals entryW.orig.handle).value - 1)]) ∧
      (w2.signals entryW.orig.handle).start_ts =
        (w2.signals entryW.signal.handle).start_ts ∧
      (w2.signals entryW.orig.handle).end_ts =
        (w2.signals entryW.signal.handle).end_ts ∧
      (w2.signals entryW.orig.handle).value =
        (wW.signals entryW.orig.handle).value - 1 ∧
      (∀ hh, hh ≠ entryW.orig.handle → w2.signals hh = wW.signals hh) :=
  complete_forwards_to_original_signal envW wW entryW (3, 5)
    (by decide) (by decide) rfl

/-- C6: both arming overloads write the entry's argument — and, for the
context-style overload, the discriminator — strictly before the
release-ordered store of the handler pointer: in each overload's write
sequence the handler store is the last write and occurs exactly once, and
no write before it is a handler store; the state effect of arming is
exactly the argument (plus discriminator) and the published handler. -/
theorem enable_handler_store_is_final_write (h a : Ptr) (e : entry_t) :
    (EnableCtxWrites h a).getLast? = some (EntryWrite.storeHandlerRel h) ∧
    (∀ ev ∈ (EnableCtxWrites h a).dropLast, ev.isHandlerStore = false) ∧
    (EnableCtxWrites h a).countP (fun ev => ev.isHandlerStore) = 1 ∧
    (EnableSimpleWrites h a).getLast? = some (EntryWrite.storeHandlerRel h) ∧
    (∀ ev ∈ (EnableSimpleWrites h a).dropLast, ev.isHandlerStore = false) ∧
    (EnableSimpleWrites h a).countP (fun ev => ev.isHandlerStore) = 1 ∧
    EnableCtx e h a = { e with context_active := true, arg := a, handler := h } ∧
    EnableSimple e h a = { e with arg := a, handler := h } := by
  refine ⟨rfl, ?_, rfl, rfl, ?_, rfl, rfl, rfl⟩
  · intro ev hev
    simp only [EnableCtxWrites, EnableWrites, List.dropLast, List.mem_cons,
      List.not_mem_nil, or_false] at hev
    rcases hev with rfl | rfl <;> rfl
  · intro ev hev
    simp only [EnableSimpleWrites, EnableWrites, List.dropLast, List.mem_cons,
      List.not_mem_nil, or_false] at hev
    rcases hev with rfl; rfl

/-- C6 witness: the conclusion at handler pointer 33, argument 42 and the
concrete entry. -/
theorem enable_handler_store_is_final_write_witness :
    (EnableCtxWrites 33 42).getLast? = some (EntryWrite.storeHandlerRel 33) ∧
    (∀ ev ∈ (EnableCtxWrites 33 42).dropLast, ev.isHandlerStore = false) ∧
    (EnableCtxWrites 33 42).countP (fun ev => ev.isHandlerStore) = 1 ∧
    (EnableSimpleWrites 33 42).getLast? = some (EntryWrite.storeHandlerRel 33) ∧
    (∀ ev ∈ (EnableSimpleWrites 33 42).dropLast, ev.isHandlerStore = false) ∧
    (EnableSimpleWrites 33 42).countP (fun ev => ev.isHandlerStore) = 1 ∧
    EnableCtx entryW 33 42 =
      { entryW with context_active := true, arg := 42, handler := 33 } ∧
    EnableSimple entryW 33 42 = { entryW with arg := 42, handler := 33 } :=
  enable_handler_store_is_final_write 33 42 entryW

/-- C4: a successful `Alloc` stamps the new record's dispatch timestamp
from the shared clock, creates the proxy signal with initial value 1 and
no consumer list, registers the static callback on it with the threshold
condition `value < 1` and the entry as its opaque argument, inserts a
node holding the entry at the front of the registry list (storing the
returned iterator in the entry's `it` field), and returns the entry. -/
theorem alloc_creates_registers_inserts
    (env : AllocEnv) (t : Tracker) (agent : hsa_agent_t) (orig : hsa_signal_t)
    (eid h : Nat)
    (hs : env.signalCreate = Except.ok h)
    (hr : env.asyncHandlerStatus = 0) :
    Tracker.Alloc env t agent orig eid =
      ({ sig_list := ⟨t.nextNode, eid⟩ :: t.sig_list, nextNode := t.nextNode + 1 },
       [RtCall.signalCreate 1 0, RtCall.asyncHandlerReg ⟨h⟩ SignalCond.lt 1 eid],
       Except.ok { entryZero with
         eid := eid, agent := agent, orig := orig,
         record := { recordZero with dispatch := env.timestampNs },
         signal := ⟨h⟩, it := t.nextNode }) := by
  simp [Tracker.Alloc, hs, hr]

/-- A concrete runtime response for `Alloc`: clock at 77, signal creation
succeeds with handle 9, registration succeeds. -/
def allocEnvW : AllocEnv :=
  { timestampNs := 77, signalCreate := Except.ok 9, asyncHandlerStatus := 0 }

/-- C4 witness: allocating entry 21 against an empty registry with next
node address 5. -/
theorem alloc_creates_registers_inserts_witness :
    Tracker.Alloc allocEnvW { sig_list := [], nextNode := 5 } ⟨1⟩ ⟨7⟩ 21 =
      ({ sig_list := [⟨5, 21⟩], nextNode := 6 },
       [RtCall.signalCreate 1 0, RtCall.asyncHandlerReg ⟨9⟩ SignalCond.lt 1 21],
       Except.ok { entryZero with
         eid := 21, agent := ⟨1⟩, orig := ⟨7⟩,
         record := { recordZero with dispatch := allocEnvW.timestampNs },
         signal := ⟨9⟩, it := 5 }) :=
  alloc_creates_registers_inserts allocEnvW { sig_list := [], nextNode := 5 }
    ⟨1⟩ ⟨7⟩ 21 9 rfl rfl

/-- C5: if proxy-signal creation or asynchronous-handler registration
fails, `Alloc` raises the error to the caller at once — it neither
continues nor retries — and the registry state is unchanged: no entry was
inserted into the list. -/
theorem alloc_failure_leaves_registry_unchanged
    (env : AllocEnv) (t : Tracker) (agent : hsa_agent_t) (orig : hsa_signal_t)
    (eid : Nat)
    (hfail : (∃ s, env.signalCreate = Except.error s) ∨ env.asyncHandlerStatus ≠ 0) :
    (Tracker.Alloc env t agent orig eid).1 = t ∧
    ∃ s, (Tracker.Alloc env t agent orig eid).2.2 = Except.error s := by
  rcases hfail with ⟨s, hs⟩ | hr
  · exact ⟨by simp [Tracker.Alloc, hs], s, by simp [Tracker.Alloc, hs]⟩
  · cases hsc : env.signalCreate with
    | error s =>
      exact ⟨by simp [Tracker.Alloc, hsc], s, by simp [Tracker.Alloc, hsc]⟩
    | ok h =>
      exact ⟨by simp [Tracker.Alloc, hsc, hr], env.asyncHandlerStatus,
        by simp [Tracker.Alloc, hsc, hr]⟩

/-- A concrete runtime response for `Alloc` where signal creation fails
with status 3. -/
def allocEnvFailW : AllocEnv :=
  { timestampNs := 77, signalCreate := Except.error 3, asyncHandlerStatus := 0 }

/-- C5 witness: a failing allocation against a one-entry registry leaves
it unchanged and reports an error. -/
theorem alloc_failure_leaves_registry_unchanged_witness :
    (Tracker.Alloc allocEnvFailW trackerW ⟨1⟩ ⟨7⟩ 22).1 = trackerW ∧
    ∃ s, (Tracker.Alloc allocEnvFailW trackerW ⟨1⟩ ⟨7⟩ 22).2.2 = Except.error s :=
  alloc_failure_leaves_registry_unchanged allocEnvFailW trackerW ⟨1⟩ ⟨7⟩ 22
    (Or.inl ⟨3, rfl⟩)

/-- The destructor loop, generalized over the node sequence it still has
to visit: when every node's entry stores that node as its iterator, each
`Delete` removes exactly the node being visited, so the loop drains the
whole list and the trace is wait-then-erase per entry in list order. -/
theorem dtorGo_spec (heap : Nat → entry_t) :
    ∀ (ns : List LNode) (t : Tracker), t.sig_list = ns →
      (∀ n ∈ ns, (heap n.entry).it = n.nid) →
      (dtorGo heap ns t).2.sig_list = [] ∧
      (dtorGo heap ns t).1 = ns.flatMap
        (fun n => [DtorEvent.waitSig (heap n.entry).signal,
                   DtorEvent.eraseEntry (heap n.entry).eid]) := by
  intro ns
  induction ns with
  | nil =>
    intro t ht _
    exact ⟨ht, rfl⟩
  | cons n rest ih =>
    intro t ht hinv
    have hit : (heap n.entry).it = n.nid := hinv n (List.mem_cons_self n rest)
    have hdel : (t.Delete (heap n.entry)).sig_list = rest := by
      simp [Tracker.Delete, Tracker.eraseIt, ht, hit]
    have ihh := ih (t.Delete (heap n.entry)) hdel
      (fun m hm => hinv m (List.mem_cons_of_mem n hm))
    exact ⟨by simp [dtorGo, ihh.1], by simp [dtorGo, ihh.2]⟩

/-- C8: under the self-position invariant (each listed node's entry
stores that node as its iterator, which `Alloc` establishes), the
destructor visits every entry still in the list, blocks on that entry's
proxy signal and only then erases and frees it — the trace is exactly a
wait followed by an erase per entry, in list order — and when the
destructor finishes, zero entries remain in the registry. -/
theorem dtor_waits_then_drains_every_entry
    (heap : Nat → entry_t) (t : Tracker)
    (hinv : ∀ n ∈ t.sig_list, (heap n.entry).it = n.nid) :
    (TrackerDtor heap t).2.sig_list = [] ∧
    (TrackerDtor heap t).1 = t.sig_list.flatMap
      (fun n => [DtorEvent.waitSig (heap n.entry).signal,
                 DtorEvent.eraseEntry (heap n.entry).eid]) :=
  dtorGo_spec heap t.sig_list t rfl hinv

/-- A second concrete entry for the drain fixture: entry 22 at node 6
with proxy signal handle 10. -/
def entryX : entry_t := { entryW with eid := 22, it := 6, signal := ⟨10⟩ }

/-- A concrete two-entry registry for the drain fixture. -/
def trackerTwoW : Tracker := { sig_list := [⟨5, 21⟩, ⟨6, 22⟩], nextNode := 7 }

/-- A concrete heap resolving the two stored entry pointers. -/
def heapW : Nat → entry_t :=
  fun eid => if eid = 21 then entryW else if eid = 22 then entryX else entryZero

/-- C8 witness: draining the concrete two-entry registry empties it and
waits on each proxy signal before the corresponding erase. -/
theorem dtor_waits_then_drains_every_entry_witness :
    (TrackerDtor heapW trackerTwoW).2.sig_list = [] ∧
    (TrackerDtor heapW trackerTwoW).1 = trackerTwoW.sig_list.flatMap
      (fun n => [DtorEvent.waitSig (heapW n.entry).signal,
                 DtorEvent.eraseEntry (heapW n.entry).eid]) :=
  dtor_waits_then_drains_every_entry heapW trackerTwoW (by decide)

/-- C10: the registry's self-position invariant. `Alloc` establishes it:
the returned entry's stored iterator is the fresh front node, and that
node holds exactly this entry. `Delete` relies on it: when the registry
splits as `pre ++ own-node :: post` with no earlier node at the entry's
stored iterator address, erasing `entry->it` removes precisely the
entry's own node and leaves every other node — hence every other entry's
stored iterator — in place. -/
theorem registry_self_position_invariant
    (env : AllocEnv) (t td : Tracker) (agent : hsa_agent_t) (orig : hsa_signal_t)
    (eid h : Nat) (e : entry_t) (pre post : List LNode)
    (hs : env.signalCreate = Except.ok h)
    (hr : env.asyncHandlerStatus = 0)
    (hsplit : td.sig_list = pre ++ LNode.mk e.it e.eid :: post)
    (hpre : ∀ n ∈ pre, n.nid ≠ e.it) :
    (∃ entry t2 calls,
      Tracker.Alloc env t agent orig eid = (t2, calls, Except.ok entry) ∧
      entry.it = t.nextNode ∧ entry.eid = eid ∧
      t2.sig_list = LNode.mk entry.it entry.eid :: t.sig_list) ∧
    (td.Delete e).sig_list = pre ++ post := by
  constructor
  · refine ⟨{ entryZero with
        eid := eid, agent := agent, orig := orig,
        record := { recordZero with dispatch := env.timestampNs },
        signal := ⟨h⟩, it := t.nextNode },
      { sig_list := ⟨t.nextNode, eid⟩ :: t.sig_list, nextNode := t.nextNode + 1 },
      [RtCall.signalCreate 1 0, RtCall.asyncHandlerReg ⟨h⟩ SignalCond.lt 1 eid],
      ?_, rfl, rfl, rfl⟩
    simp [Tracker.Alloc, hs, hr]
  · simp only [Tracker.Delete, Tracker.eraseIt, hsplit]
    rw [List.eraseP_append_right (LNode.mk e.it e.eid :: post)
      (fun n hn => by simp [hpre n hn])]
    simp

/-- A concrete registry whose middle node is `entryW`'s own node. -/
def trackerMidW : Tracker :=
  { sig_list := [⟨4, 30⟩, ⟨5, 21⟩, ⟨6, 31⟩], nextNode := 7 }

/-- C10 witness: allocation establishes the invariant on the concrete
fixtures, and deleting `entryW` from the three-node registry removes
exactly its own middle node. -/
theorem registry_self_position_invariant_witness :
    (∃ entry t2 calls,
      Tracker.Alloc allocEnvW { sig_list := [], nextNode := 5 } ⟨1⟩ ⟨7⟩ 21 =
        (t2, calls, Except.ok entry) ∧
      entry.it = Tracker.nextNode { sig_list := [], nextNode := 5 } ∧
      entry.eid = 21 ∧
      t2.sig_list = LNode.mk entry.it entry.eid ::
        Tracker.sig_list { sig_list := [], nextNode := 5 }) ∧
    (trackerMidW.Delete entryW).sig_list = [⟨4, 30⟩] ++ [⟨6, 31⟩] :=
  registry_self_position_invariant allocEnvW { sig_list := [], nextNode := 5 }
    trackerMidW ⟨1⟩ ⟨7⟩ 21 9 entryW [⟨4, 30⟩] [⟨6, 31⟩] rfl rfl rfl (by decide)

end Rocprofiler
